import Mathlib

/-!
Shallow embedding of the minimal HTTP routing and middleware-dispatch core
described by the repository's specification, together with a direct embedding
of the RESTful user handlers that appear verbatim in `src/Express.js`.

The repository's source file is a tutorial document whose code consists of
usage snippets of a web framework (`app.get`, `app.use`, ...); the router,
path matcher and dispatcher themselves are not present under `src/`.  Those
components are therefore modelled from the specification text (sections
4.1-4.4 and 7), as marked on each definition.  The PUT and DELETE user
handlers (src/Express.js lines 193-204) are real source code and are embedded
directly.
-/

namespace Express

/-- Splits a list of characters at every occurrence of `c`; the accumulator
holds the current segment reversed. -/
def splitOnCharAux (c : Char) : List Char → List Char → List (List Char)
  | [], acc => [acc.reverse]
  | x :: xs, acc =>
    if x = c then acc.reverse :: splitOnCharAux c xs []
    else splitOnCharAux c xs (x :: acc)

/-- Splits a string at every occurrence of the character `c`. -/
def splitOnChar (c : Char) (s : String) : List String :=
  (splitOnCharAux c s.data []).map (fun l => String.mk l)

/-- Modelled from the spec: the Path Matcher (section 4.1) works on the `/`
separated segments of a path; empty segments (leading/trailing slashes) are
discarded. -/
def splitPath (s : String) : List String :=
  (splitOnChar '/' s).filter (fun t => t ≠ "")

/-- Modelled from the spec: a compiled pattern segment is either a literal
segment or a `:name` parameter segment (section 4.1). -/
inductive Seg where
  | lit (s : String)
  | param (name : String)
deriving DecidableEq

/-- Modelled from the spec: a pattern segment beginning with `:` compiles to a
parameter segment named by the rest; anything else is a literal. -/
def compileSeg (s : String) : Seg :=
  match s.data with
  | ':' :: rest => Seg.param (String.mk rest)
  | _ => Seg.lit s

/-- Modelled from the spec: `compile(pattern)` (section 4.1) splits the
pattern into segments and compiles each one. -/
def compile (pattern : String) : List Seg :=
  (splitPath pattern).map compileSeg

/-- Modelled from the spec: matching compiled segments against path segments.
A literal must match exactly; a `:name` segment matches any non-empty path
segment and binds it to `name`; lengths must agree; a failed match is the
negative result `none`, not an error (section 4.1). -/
def matchSegs : List Seg → List String → Option (List (String × String))
  | [], [] => some []
  | Seg.lit l :: ps, s :: ss => if s = l then matchSegs ps ss else none
  | Seg.param n :: ps, s :: ss =>
    if s = "" then none else (matchSegs ps ss).map (fun bs => (n, s) :: bs)
  | _, _ => none

/-- Modelled from the spec: `matcher.match(path)` (section 4.1). -/
def matchPath (pat : List Seg) (path : String) : Option (List (String × String)) :=
  matchSegs pat (splitPath path)

/-- An HTTP response: status code and body (section 3). -/
structure Response where
  status : Nat
  body : String
deriving DecidableEq

/-- A request: method, path, query mapping and params mapping populated by the
Path Matcher (section 3).  The opaque body payload is irrelevant to the
dispatch core and omitted. -/
structure Request where
  method : String
  path : String
  query : List (String × String)
  params : List (String × String)
deriving DecidableEq

/-- First value bound to key `k` in an association list (used for
`req.query.q` and `req.params.userId` style access). -/
def assocFind (m : List (String × String)) (k : String) : Option String :=
  match m.find? (fun p => p.1 = k) with
  | some p => some p.2
  | none => none

/-- Modelled from the spec: the observable outcome of one handler invocation —
write a terminal response, invoke the continuation with no argument, or invoke
it with an error value / raise synchronously (section 4.3 treats the latter
two identically). -/
inductive Outcome where
  | respond (r : Response)
  | next
  | fail (e : String)

/-- Modelled from the spec: handlers are an explicit tagged variant, Normal
(request, response, continuation) or ErrorHandler (error, request, response,
continuation), chosen at registration time (sections 3 and 9). -/
inductive Handler where
  | normal (f : Request → Outcome)
  | errorHandler (f : String → Request → Outcome)

/-- Modelled from the spec: Dispatcher states RUNNING(i), RESPONDED,
ERRORED(error, i) and DONE (section 4.3). -/
inductive DState where
  | running (i : Nat)
  | responded (r : Response)
  | errored (e : String) (i : Nat)
  | done

/-- RESPONDED and DONE are the terminal states (section 4.3). -/
def isTerminal : DState → Bool
  | DState.responded _ => true
  | DState.done => true
  | _ => false

/-- Modelled from the spec: scan the chain for the first ErrorHandler-variant
handler at an index at least `j`, returning its index and function
(section 4.3, ERRORED transition). -/
def findErrFrom : List Handler → Nat → Option (Nat × (String → Request → Outcome))
  | [], _ => none
  | Handler.normal _ :: rest, 0 => (findErrFrom rest 0).map (fun p => (p.1 + 1, p.2))
  | Handler.errorHandler f :: _, 0 => some (0, f)
  | _ :: rest, j + 1 => (findErrFrom rest j).map (fun p => (p.1 + 1, p.2))

/-- Modelled from the spec: the generic 500-equivalent response emitted when a
handler fails and no downstream error handler exists (sections 4.3 and 7). -/
def defaultFault : Response :=
  { status := 500, body := "Internal Server Error" }

/-- Modelled from the spec: one transition of the dispatch state machine
(section 4.3), also reporting which handler index was invoked and whether that
invocation wrote a terminal response.  In RUNNING(i): past the chain end is
DONE; a Normal handler is invoked and its outcome decides the next state; an
ErrorHandler-variant is skipped during normal flow.  In ERRORED(e, i): the
next ErrorHandler after index i is invoked with the error in place of normal
arguments, or the default fault response is emitted. -/
def step (chain : List Handler) (req : Request) : DState → DState × Option (Nat × Bool)
  | DState.running i =>
    match chain[i]? with
    | none => (DState.done, none)
    | some (Handler.normal f) =>
      match f req with
      | Outcome.respond r => (DState.responded r, some (i, true))
      | Outcome.next => (DState.running (i + 1), some (i, false))
      | Outcome.fail e => (DState.errored e i, some (i, false))
    | some (Handler.errorHandler _) => (DState.running (i + 1), none)
  | DState.errored e i =>
    match findErrFrom chain (i + 1) with
    | none => (DState.responded defaultFault, none)
    | some (j, f) =>
      match f e req with
      | Outcome.respond r => (DState.responded r, some (j, true))
      | Outcome.next => (DState.running (j + 1), some (j, false))
      | Outcome.fail e2 => (DState.errored e2 j, some (j, false))
  | s => (s, none)

/-- Modelled from the spec: the dispatch loop, an index cursor over the chain
(section 9), with explicit fuel; it also returns the trace of handler
invocations as (index, wrote-terminal-response) pairs. -/
def run (chain : List Handler) (req : Request) : Nat → DState → DState × List (Nat × Bool)
  | 0, s => (s, [])
  | fuel + 1, s =>
    if isTerminal s then (s, [])
    else
      let p := step chain req s
      let q := run chain req fuel p.1
      (q.1, p.2.toList ++ q.2)

/-- Modelled from the spec: execute a full chain from RUNNING(0); the fuel
`2 * length + 3` exceeds the termination measure and is shown sufficient
below. -/
def runChain (chain : List Handler) (req : Request) : DState × List (Nat × Bool) :=
  run chain req (2 * chain.length + 3) (DState.running 0)

/-- Modelled from the spec: a Route is an immutable (method, pattern, handler
chain) binding; a `none` method is the wildcard used by middleware registered
without a method (sections 3 and 4.2). -/
structure Route where
  method : Option String
  pattern : List Seg
  handlers : List Handler

/-- Modelled from the spec: a wildcard-method route matches any request
method (section 4.2). -/
def methodMatches (m : String) (r : Route) : Bool :=
  match r.method with
  | none => true
  | some m2 => m2 = m

/-- A route matches a request when its method matches and its compiled
pattern matches the path. -/
def routeMatches (m : String) (path : String) (r : Route) : Bool :=
  methodMatches m r && (matchPath r.pattern path).isSome

/-- Modelled from the spec: `lookup(method, path)` produces the matching
routes in registration order, ties broken by registration order and never by
specificity (section 4.2). -/
def lookup (routes : List Route) (m : String) (path : String) : List Route :=
  routes.filter (routeMatches m path)

/-- Modelled from the spec: the Router object holding global application-level
middleware and the append-only route table (sections 4.3 and 9). -/
structure App where
  middleware : List Handler
  routes : List Route

/-- Modelled from the spec: dispatch selects the first matching route —
first-registered, first-tried (sections 2 and 4.2). -/
def selectRoute (app : App) (m : String) (path : String) : Option Route :=
  (lookup app.routes m path).head?

/-- Splits a URL into path and query string at the first `?`. -/
def splitUrl (url : String) : String × String :=
  match splitOnChar '?' url with
  | [] => ("", "")
  | [p] => (p, "")
  | p :: q :: _ => (p, q)

/-- Parses one `key=value` query pair. -/
def parseQueryPair (s : String) : String × String :=
  match splitOnChar '=' s with
  | [] => ("", "")
  | [k] => (k, "")
  | k :: v :: _ => (k, v)

/-- Parses an `&`-separated query string into a key-value mapping. -/
def parseQuery (s : String) : List (String × String) :=
  ((splitOnChar '&' s).filter (fun t => t ≠ "")).map parseQueryPair

/-- Modelled from the spec: the not-found response emitted for the NoMatch
outcome, also used for the DONE fallback 404-equivalent outcome
(sections 4.3 and 7). -/
def notFound : Response :=
  { status := 404, body := "Not Found" }

/-- Modelled from the spec: `dispatch(request)` — parse the URL, select the
first matching route in registration order, inject the extracted params, run
the state machine over global middleware followed by the route's handlers,
and convert the terminal state into a response (sections 4.2, 4.3 and 7). -/
def dispatch (app : App) (m : String) (url : String) : Response :=
  let pq := splitUrl url
  match selectRoute app m pq.1 with
  | none => notFound
  | some route =>
    let params := (matchPath route.pattern pq.1).getD []
    let req : Request :=
      { method := m, path := pq.1, query := parseQuery pq.2, params := params }
    let chain := app.middleware ++ route.handlers
    match (runChain chain req).1 with
    | DState.responded r => r
    | _ => notFound

/-- Route selection viewed as a state-passing operation: the route table is
threaded through dispatch unchanged (section 5: the table is effectively
immutable after startup; dispatch never mutates it). -/
def selectRouteS (app : App) (m : String) (url : String) : Option Route × App :=
  (selectRoute app m (splitUrl url).1, app)

/-- A user record as handled by the RESTful API example: an `id` compared
against the `:userId` path parameter, plus an opaque remainder
(src/Express.js lines 181-204). -/
structure User where
  id : String
  payload : String
deriving DecidableEq

/-- Body of a RESTful API response: empty (`res.send()`) or a user serialized
as JSON (`res.json(user)`). -/
inductive RestBody where
  | empty
  | jsonUser (u : User)
deriving DecidableEq

/-- A RESTful API response: status code and body. -/
structure RestResponse where
  status : Nat
  body : RestBody
deriving DecidableEq

/-- The PUT `/api/users/:userId` handler (src/Express.js lines 193-198):
`users = users.map(user => user.id === userId ? updatedUser : user)` followed
by `res.json(updatedUser)` (default status 200). -/
def putUserHandler (users : List User) (userId : String) (updatedUser : User) :
    List User × RestResponse :=
  (users.map (fun user => if user.id = userId then updatedUser else user),
   { status := 200, body := RestBody.jsonUser updatedUser })

/-- The DELETE `/api/users/:userId` handler (src/Express.js lines 200-204):
`users = users.filter(user => user.id !== userId)` followed by
`res.status(204).send()`. -/
def deleteUserHandler (users : List User) (userId : String) :
    List User × RestResponse :=
  (users.filter (fun user => user.id ≠ userId),
   { status := 204, body := RestBody.empty })

/-- Termination measure for the dispatch state machine over a chain of length
`len`: strictly decreases along every non-terminal transition. -/
def dMeasure (len : Nat) : DState → Nat
  | DState.running i => 2 * (len - i) + 2
  | DState.errored _ i => 2 * (len - i) + 1
  | _ => 0

/-- Smallest chain index the machine can still invoke from a given state. -/
def lowIdx : DState → Nat
  | DState.running i => i
  | DState.errored _ i => i + 1
  | _ => 0

/-- A fixed request used to instantiate universally quantified statements. -/
def reqStub : Request :=
  { method := "GET", path := "/", query := [], params := [] }

/-- The application of the end-to-end scenario: GET `/search` registered with
a handler echoing `req.query.q` in the body (the handler shape registered at
src/Express.js lines 80-82, with the body reduced to the echoed query value as
the scenario prescribes). -/
def searchApp : App :=
  { middleware := [],
    routes := [ { method := some "GET", pattern := compile "/search",
                  handlers := [Handler.normal (fun req =>
                    Outcome.respond
                      { status := 200,
                        body := (assocFind req.query "q").getD "" })] } ] }

/-- The route `/users/:id` of the registration-order tie scenario. -/
def routeParamId : Route :=
  { method := some "GET", pattern := compile "/users/:id", handlers := [] }

/-- The route `/users/all` of the registration-order tie scenario. -/
def routeAll : Route :=
  { method := some "GET", pattern := compile "/users/all", handlers := [] }

/-- An error handler found by scanning from `d` lies at an index between `d`
and the chain length. -/
theorem findErrFrom_bounds :
    ∀ (chain : List Handler) (d j : Nat) (f : String → Request → Outcome),
      findErrFrom chain d = some (j, f) → d ≤ j ∧ j < chain.length := by
  intro chain
  induction chain with
  | nil =>
    intro d j f h
    simp [findErrFrom] at h
  | cons hd rest ih =>
    intro d j f h
    cases d with
    | succ d2 =>
      have h2 : (findErrFrom rest d2).map (fun p => (p.1 + 1, p.2)) = some (j, f) := by
        rw [findErrFrom] at h
        exact h
      obtain ⟨p, hp, hpe⟩ := Option.map_eq_some'.mp h2
      have hb := ih d2 p.1 p.2 (by rw [hp])
      have hj : j = p.1 + 1 := by
        have := congrArg Prod.fst hpe
        simpa using this.symm
      simp only [List.length_cons]
      omega
    | zero =>
      cases hd with
      | errorHandler g =>
        have h2 : (some (0, g) : Option (Nat × (String → Request → Outcome))) = some (j, f) := by
          rw [findErrFrom] at h
          exact h
        have hj : j = 0 := by
          have := congrArg Prod.fst (Option.some_inj.mp h2)
          simpa using this.symm
        simp only [List.length_cons]
        omega
      | normal g =>
        have h2 : (findErrFrom rest 0).map (fun p => (p.1 + 1, p.2)) = some (j, f) := by
          rw [findErrFrom] at h
          exact h
        obtain ⟨p, hp, hpe⟩ := Option.map_eq_some'.mp h2
        have hb := ih 0 p.1 p.2 (by rw [hp])
        have hj : j = p.1 + 1 := by
          have := congrArg Prod.fst hpe
          simpa using this.symm
        simp only [List.length_cons]
        omega

/-- From a terminal state, the dispatch loop halts immediately with an empty
invocation trace. -/
theorem run_of_terminal (chain : List Handler) (req : Request) (fuel : Nat)
    (s : DState) (h : isTerminal s = true) : run chain req fuel s = (s, []) := by
  cases fuel with
  | zero => rfl
  | succ n => simp [run, h]

/-- Every non-terminal transition strictly decreases the measure. -/
theorem step_measure_lt (chain : List Handler) (req : Request) (s : DState)
    (h : isTerminal s = false) :
    dMeasure chain.length (step chain req s).1 < dMeasure chain.length s := by
  cases s with
  | responded r => simp [isTerminal] at h
  | done => simp [isTerminal] at h
  | running i =>
    cases hg : chain[i]? with
    | none => simp [step, hg, dMeasure]
    | some hd =>
      have hlen : i < chain.length := by
        by_contra hc
        rw [List.getElem?_eq_none_iff.mpr (by omega)] at hg
        exact Option.noConfusion hg
      cases hd with
      | normal f =>
        cases hf : f req <;> simp [step, hg, hf, dMeasure] <;> omega
      | errorHandler f =>
        simp only [step, hg, dMeasure]
        omega
  | errored e i =>
    cases hf : findErrFrom chain (i + 1) with
    | none => simp [step, hf, dMeasure]
    | some p =>
      obtain ⟨j, f⟩ := p
      obtain ⟨hj1, hj2⟩ := findErrFrom_bounds chain (i + 1) j f hf
      cases ho : f e req <;> simp [step, hf, ho, dMeasure] <;> omega

/-- With fuel exceeding the measure, the dispatch loop reaches a terminal
state. -/
theorem run_reaches_terminal (chain : List Handler) (req : Request) :
    ∀ (fuel : Nat) (s : DState), dMeasure chain.length s < fuel →
      isTerminal (run chain req fuel s).1 = true := by
  intro fuel
  induction fuel with
  | zero => intro s h; omega
  | succ n ih =>
    intro s h
    cases ht : isTerminal s with
    | true => simp [run, ht]
    | false =>
      have hd := step_measure_lt chain req s ht
      simp only [run, ht, Bool.false_eq_true, if_false]
      exact ih _ (by omega)

/-- The invocation trace from a state is bounded by the number of chain
indices the machine can still visit. -/
theorem run_trace_length (chain : List Handler) (req : Request) :
    ∀ (fuel : Nat) (s : DState),
      (run chain req fuel s).2.length ≤ chain.length - lowIdx s := by
  intro fuel
  induction fuel with
  | zero => intro s; simp [run]
  | succ n ih =>
    intro s
    cases ht : isTerminal s with
    | true => simp [run, ht]
    | false =>
      simp only [run, ht, Bool.false_eq_true, if_false]
      cases s with
      | responded r => simp [isTerminal] at ht
      | done => simp [isTerminal] at ht
      | running i =>
        cases hg : chain[i]? with
        | none =>
          simp only [step, hg]
          rw [run_of_terminal chain req n DState.done rfl]
          simp [lowIdx]
        | some hd =>
          have hlen : i < chain.length := by
            by_contra hc
            rw [List.getElem?_eq_none_iff.mpr (by omega)] at hg
            exact Option.noConfusion hg
          cases hd with
          | normal f =>
            cases hf : f req with
            | respond r =>
              simp only [step, hg, hf]
              rw [run_of_terminal chain req n (DState.responded r) rfl]
              simp [lowIdx]
              omega
            | next =>
              simp only [step, hg, hf]
              have := ih (DState.running (i + 1))
              simp only [lowIdx] at this ⊢
              simp only [Option.toList_some, List.singleton_append, List.length_cons]
              omega
            | fail e =>
              simp only [step, hg, hf]
              have := ih (DState.errored e i)
              simp only [lowIdx] at this ⊢
              simp only [Option.toList_some, List.singleton_append, List.length_cons]
              omega
          | errorHandler f =>
            simp only [step, hg]
            have := ih (DState.running (i + 1))
            simp only [lowIdx] at this ⊢
            simp only [Option.toList_none, List.nil_append]
            omega
      | errored e i =>
        cases hfe : findErrFrom chain (i + 1) with
        | none =>
          simp only [step, hfe]
          rw [run_of_terminal chain req n (DState.responded defaultFault) rfl]
          simp [lowIdx]
        | some p =>
          obtain ⟨j, f⟩ := p
          obtain ⟨hj1, hj2⟩ := findErrFrom_bounds chain (i + 1) j f hfe
          cases ho : f e req with
          | respond r =>
            simp only [step, hfe, ho]
            rw [run_of_terminal chain req n (DState.responded r) rfl]
            simp [lowIdx]
            omega
          | next =>
            simp only [step, hfe, ho]
            have := ih (DState.running (j + 1))
            simp only [lowIdx] at this ⊢
            simp only [Option.toList_some, List.singleton_append, List.length_cons]
            omega
          | fail e2 =>
            simp only [step, hfe, ho]
            have := ih (DState.errored e2 j)
            simp only [lowIdx] at this ⊢
            simp only [Option.toList_some, List.singleton_append, List.length_cons]
            omega

/-- An invocation that writes a terminal response sends the machine to a
terminal state. -/
theorem step_write_terminal (chain : List Handler) (req : Request) (s : DState)
    (i : Nat) (h : (step chain req s).2 = some (i, true)) :
    isTerminal (step chain req s).1 = true := by
  cases s with
  | responded r => simp [step] at h
  | done => simp [step] at h
  | running k =>
    cases hg : chain[k]? with
    | none => simp [step, hg] at h
    | some hd =>
      cases hd with
      | normal f =>
        cases hf : f req <;> simp [step, hg, hf, isTerminal] <;> simp [step, hg, hf] at h
      | errorHandler f => simp [step, hg] at h
  | errored e k =>
    cases hfe : findErrFrom chain (k + 1) with
    | none => simp [step, hfe] at h
    | some p =>
      obtain ⟨j, f⟩ := p
      cases ho : f e req <;> simp [step, hfe, ho, isTerminal] <;> simp [step, hfe, ho] at h

/-- Membership in `dropLast` of a cons decomposes into the head or `dropLast`
of the tail. -/
theorem mem_dropLast_cons {α : Type} {a x : α} {l : List α}
    (h : x ∈ (a :: l).dropLast) : x = a ∨ x ∈ l.dropLast := by
  cases l with
  | nil => simp at h
  | cons b t =>
    rw [List.dropLast_cons₂] at h
    simpa using h

/-- Write-once invariant along the dispatch loop: every invocation in the
trace except possibly the last one did not write a terminal response. -/
theorem run_trace_writeOnce (chain : List Handler) (req : Request) :
    ∀ (fuel : Nat) (s : DState) (x : Nat × Bool),
      x ∈ (run chain req fuel s).2.dropLast → x.2 = false := by
  intro fuel
  induction fuel with
  | zero => intro s x hx; simp [run] at hx
  | succ n ih =>
    intro s x hx
    cases ht : isTerminal s with
    | true => simp [run, ht] at hx
    | false =>
      simp only [run, ht, Bool.false_eq_true, if_false] at hx
      cases hp : (step chain req s).2 with
      | none =>
        rw [hp] at hx
        simp only [Option.toList_none, List.nil_append] at hx
        exact ih _ x hx
      | some q =>
        obtain ⟨i, b⟩ := q
        rw [hp] at hx
        simp only [Option.toList_some, List.singleton_append] at hx
        cases b with
        | false =>
          rcases mem_dropLast_cons hx with hxa | hxm
          · rw [hxa]
          · exact ih _ x hxm
        | true =>
          have hterm := step_write_terminal chain req s i hp
          rw [run_of_terminal chain req n _ hterm] at hx
          simp at hx

/-- C1: registering GET `/search` with a handler that returns `req.query.q`
echoed in the body and dispatching the request GET `/search?q=cats` produces
a response whose body is exactly `"cats"`. -/
theorem search_query_echo_end_to_end :
    (dispatch searchApp "GET" "/search?q=cats").body = "cats" := by
  decide

/-- C4: a dispatch over a chain whose only handler is a Normal handler that
fails, with no ErrorHandler present, ends in the default fault response; the
error is converted into state transitions by the (total) state machine and
dispatch returns normally. -/
theorem unrecovered_failure_default_fault :
    ∀ (f : Request → Outcome) (req : Request) (e : String),
      f req = Outcome.fail e →
      runChain [Handler.normal f] req
        = (DState.responded defaultFault, [(0, false)]) := by
  intro f req e h
  simp [runChain, run, step, findErrFrom, isTerminal, h]

/-- Witness for C4 at a concrete failing handler and request. -/
theorem unrecovered_failure_default_fault_witness :
    runChain [Handler.normal (fun _ => Outcome.fail "boom")] reqStub
      = (DState.responded defaultFault, [(0, false)]) :=
  unrecovered_failure_default_fault (fun _ => Outcome.fail "boom") reqStub "boom" rfl

/-- C3: over the chain [Normal(fails), Normal, ErrorHandler], the dispatcher
skips the plain Normal handler and invokes only the ErrorHandler: the trace of
invoked indices is [0, 2], and the outcome is decided by the ErrorHandler
applied to the error in place of the normal arguments. -/
theorem error_chain_skips_normal_invokes_errorHandler :
    ∀ (f1 h2 : Request → Outcome) (eh : String → Request → Outcome)
      (req : Request) (e : String),
      f1 req = Outcome.fail e →
      (runChain [Handler.normal f1, Handler.normal h2, Handler.errorHandler eh]
          req).2.map Prod.fst = [0, 2]
      ∧ (runChain [Handler.normal f1, Handler.normal h2, Handler.errorHandler eh]
          req).1
        = (match eh e req with
           | Outcome.respond r => DState.responded r
           | Outcome.next => DState.done
           | Outcome.fail _ => DState.responded defaultFault) := by
  intro f1 h2 eh req e h
  cases ho : eh e req <;>
    simp [runChain, run, step, findErrFrom, isTerminal, h, ho]

/-- Witness for C3 at a concrete chain: the error handler receives the error
`"boom"` raised by the first handler and echoes it into the response. -/
theorem error_chain_skips_normal_invokes_errorHandler_witness :
    (runChain [Handler.normal (fun _ => Outcome.fail "boom"),
               Handler.normal (fun _ => Outcome.next),
               Handler.errorHandler (fun err _ =>
                 Outcome.respond { status := 500, body := err })]
        reqStub).2.map Prod.fst = [0, 2]
    ∧ (runChain [Handler.normal (fun _ => Outcome.fail "boom"),
                 Handler.normal (fun _ => Outcome.next),
                 Handler.errorHandler (fun err _ =>
                   Outcome.respond { status := 500, body := err })]
        reqStub).1 = DState.responded { status := 500, body := "boom" } :=
  error_chain_skips_normal_invokes_errorHandler
    (fun _ => Outcome.fail "boom") (fun _ => Outcome.next)
    (fun err _ => Outcome.respond { status := 500, body := err }) reqStub "boom" rfl

/-- C5: at most one terminal write per dispatch — every invocation in the
trace except possibly the last wrote no terminal response; and in a chain of
three Normal handlers where the first continues and the second responds, the
third handler is never invoked and the second handler's response is the
dispatch outcome. -/
theorem single_terminal_write_per_dispatch :
    (∀ (chain : List Handler) (req : Request) (x : Nat × Bool),
        x ∈ (runChain chain req).2.dropLast → x.2 = false)
    ∧ (∀ (g1 g2 g3 : Request → Outcome) (req : Request) (r : Response),
        g1 req = Outcome.next → g2 req = Outcome.respond r →
        runChain [Handler.normal g1, Handler.normal g2, Handler.normal g3] req
          = (DState.responded r, [(0, false), (1, true)])) := by
  constructor
  · intro chain req x hx
    exact run_trace_writeOnce chain req _ _ x hx
  · intro g1 g2 g3 req r h1 h2
    simp [runChain, run, step, isTerminal, h1, h2]

/-- Witness for C5 at a concrete three-handler chain. -/
theorem single_terminal_write_per_dispatch_witness :
    runChain [Handler.normal (fun _ => Outcome.next),
              Handler.normal (fun _ => Outcome.respond { status := 200, body := "ok" }),
              Handler.normal (fun _ => Outcome.next)] reqStub
      = (DState.responded { status := 200, body := "ok" }, [(0, false), (1, true)]) :=
  single_terminal_write_per_dispatch.2 (fun _ => Outcome.next)
    (fun _ => Outcome.respond { status := 200, body := "ok" })
    (fun _ => Outcome.next) reqStub { status := 200, body := "ok" } rfl rfl

/-- C7: every dispatch terminates — the state machine reaches a terminal
state (RESPONDED or DONE, and being a function it reaches exactly one), and
the number of handler invocations is bounded by the chain length. -/
theorem dispatch_terminates_bounded :
    ∀ (chain : List Handler) (req : Request),
      isTerminal (runChain chain req).1 = true
      ∧ (runChain chain req).2.length ≤ chain.length := by
  intro chain req
  constructor
  · exact run_reaches_terminal chain req _ _ (by simp [dMeasure])
  · have h := run_trace_length chain req (2 * chain.length + 3) (DState.running 0)
    simpa [runChain, lowIdx] using h

/-- C2: compiling `/users/:id` and matching `/users/42` succeeds with the
binding `id ↦ 42`; matching `/users` (missing segment) yields no match; and in
general a `:name` pattern segment matches any non-empty path segment and binds
it to `name`, with the remaining segments matched recursively. -/
theorem path_matcher_param_roundtrip :
    matchPath (compile "/users/:id") "/users/42" = some [("id", "42")]
    ∧ matchPath (compile "/users/:id") "/users" = none
    ∧ ∀ (name s : String) (pat : List Seg) (rest : List String), s ≠ "" →
        matchSegs (Seg.param name :: pat) (s :: rest)
          = (matchSegs pat rest).map (fun bs => (name, s) :: bs) := by
  refine ⟨by decide, by decide, ?_⟩
  intro name s pat rest hs
  simp [matchSegs, hs]

/-- Witness for C2's general `:name` clause at the segment `42`. -/
theorem path_matcher_param_roundtrip_witness :
    matchSegs [Seg.param "id"] ["42"] = some [("id", "42")] := by
  have h := path_matcher_param_roundtrip.2.2 "id" "42" [] [] (by decide)
  simpa [matchSegs] using h

/-- C6: `lookup` yields the matching routes in registration order (its result
is a sublist of the registration list containing exactly the matching routes,
so ties are broken by registration order, never by specificity); a
wildcard-method route matches any request method; and on the `/users/:id`
versus `/users/all` tie, each registration order is preserved and the
first-registered matching route is the one selected first. -/
theorem lookup_registration_order_wildcard :
    (∀ (routes : List Route) (m p : String), (lookup routes m p).Sublist routes)
    ∧ (∀ (routes : List Route) (m p : String) (r : Route),
        r ∈ lookup routes m p ↔ r ∈ routes ∧ routeMatches m p r = true)
    ∧ (∀ (m p : String) (pat : List Seg) (hs : List Handler),
        routeMatches m p { method := none, pattern := pat, handlers := hs }
          = (matchPath pat p).isSome)
    ∧ lookup [routeParamId, routeAll] "GET" "/users/all" = [routeParamId, routeAll]
    ∧ lookup [routeAll, routeParamId] "GET" "/users/all" = [routeAll, routeParamId]
    ∧ selectRoute { middleware := [], routes := [routeParamId, routeAll] }
        "GET" "/users/all" = some routeParamId
    ∧ selectRoute { middleware := [], routes := [routeAll, routeParamId] }
        "GET" "/users/all" = some routeAll := by
  refine ⟨?_, ?_, ?_, rfl, rfl, rfl, rfl⟩
  · intro routes m p
    exact List.filter_sublist routes
  · intro routes m p r
    simp [lookup, List.mem_filter]
  · intro m p pat hs
    simp [routeMatches, methodMatches]

/-- C8: route selection is deterministic — dispatch threads the route table
through unchanged, so selecting a route for the same request twice in
sequence against it yields the same selection both times. -/
theorem route_selection_deterministic :
    ∀ (app : App) (m url : String),
      (selectRouteS (selectRouteS app m url).2 m url).1 = (selectRouteS app m url).1
      ∧ (selectRouteS app m url).2 = app := by
  intro app m url
  exact ⟨rfl, rfl⟩

/-- C9: the DELETE `/api/users/:userId` handler removes every user whose id
equals the path parameter (all matches, not only the first), keeps every
other user unchanged (order and multiplicity preserved), and responds with
status 204 and an empty body — even when no user matched. -/
theorem delete_user_removes_all_matches :
    ∀ (users : List User) (userId : String),
      (deleteUserHandler users userId).2 = { status := 204, body := RestBody.empty }
      ∧ (∀ u : User, u ∈ (deleteUserHandler users userId).1 ↔ u ∈ users ∧ u.id ≠ userId)
      ∧ (deleteUserHandler users userId).1.Sublist users
      ∧ (∀ u : User, u.id ≠ userId →
          (deleteUserHandler users userId).1.count u = users.count u)
      ∧ ((∀ u ∈ users, u.id ≠ userId) → (deleteUserHandler users userId).1 = users) := by
  intro users userId
  refine ⟨rfl, ?_, ?_, ?_, ?_⟩
  · intro u
    simp [deleteUserHandler, List.mem_filter]
  · exact List.filter_sublist users
  · intro u hu
    simp only [deleteUserHandler]
    rw [List.count_filter]
    simp [hu]
  · intro hall
    simp only [deleteUserHandler]
    rw [List.filter_eq_self]
    intro u hu
    simpa using hall u hu

/-- Witness for C9 at a concrete user list with no matching id. -/
theorem delete_user_removes_all_matches_witness :
    (deleteUserHandler [User.mk "2" "b"] "1").1 = [User.mk "2" "b"]
    ∧ (deleteUserHandler [User.mk "2" "b"] "1").1.count (User.mk "2" "b")
      = [User.mk "2" "b"].count (User.mk "2" "b") :=
  ⟨(delete_user_removes_all_matches [User.mk "2" "b"] "1").2.2.2.2 (by decide),
   (delete_user_removes_all_matches [User.mk "2" "b"] "1").2.2.2.1
     (User.mk "2" "b") (by decide)⟩

/-- C10: the PUT `/api/users/:userId` handler replaces every user whose id
equals the path parameter with the request body, leaves every user with a
different id unchanged (positionally, with the length preserved), and always
responds with the request body as JSON — in particular, when no user has that
id the list is unchanged yet the response still reports the updated user. -/
theorem put_user_replaces_matches_reports_body :
    ∀ (users : List User) (userId : String) (updatedUser : User),
      (putUserHandler users userId updatedUser).2
        = { status := 200, body := RestBody.jsonUser updatedUser }
      ∧ (putUserHandler users userId updatedUser).1.length = users.length
      ∧ (∀ i : Nat, (putUserHandler users userId updatedUser).1[i]?
          = users[i]?.map (fun u => if u.id = userId then updatedUser else u))
      ∧ ((∀ u ∈ users, u.id ≠ userId) →
          (putUserHandler users userId updatedUser).1 = users) := by
  intro users userId updatedUser
  refine ⟨rfl, by simp [putUserHandler], ?_, ?_⟩
  · intro i
    simp only [putUserHandler]
    exact List.getElem?_map _ users i
  · intro hall
    simp only [putUserHandler]
    induction users with
    | nil => rfl
    | cons a t ih =>
      have ha : a.id ≠ userId := hall a (by simp)
      have ht := ih (fun u hu => hall u (by simp [hu]))
      simp only [List.map_cons, if_neg ha]
      rw [ht]

/-- Witness for C10 at a concrete user list with no matching id. -/
theorem put_user_replaces_matches_reports_body_witness :
    (putUserHandler [User.mk "2" "b"] "1" (User.mk "1" "z")).1 = [User.mk "2" "b"]
    ∧ (putUserHandler [User.mk "2" "b"] "1" (User.mk "1" "z")).2
      = { status := 200, body := RestBody.jsonUser (User.mk "1" "z") } :=
  ⟨(put_user_replaces_matches_reports_body [User.mk "2" "b"] "1"
      (User.mk "1" "z")).2.2.2 (by decide),
   (put_user_replaces_matches_reports_body [User.mk "2" "b"] "1"
      (User.mk "1" "z")).1⟩

end Express
